import Mathlib

/-!
Verification development for the travel-agent chat frontend.

The definitions below are a shallow embedding of the client-side streaming
session/state synchronization engine:

* the chat / preferences / sessions Pinia stores
  (frontend/src/stores/chat.ts, preferences.ts, sessions.ts), and
* the streaming `sendMessage` client of the `useChat` composable
  (frontend/src/composables/useChat.ts, bundled into main.ts),

together with theorems settling the stated properties of that code.

Modelling conventions:
* JavaScript runtime values flowing through `JSON.parse` are modelled by the
  inductive type `JVal`; JSON numbers are kept as exact decimals
  `m * 10 ^ e` (the claims under verification only involve integers).
* Wall-clock fields (`timestamp` on messages/actions, `lastActivity` on
  sessions) are not modelled: no verified property mentions them.
* `uuidv4()` identifier generation is modelled by a fresh-id counter
  threaded through the state.
* Character classes (`\s`, `\w`, `.` of JavaScript regexes, `String.trim`,
  `toLowerCase`) are modelled on their ASCII core plus NBSP/BOM; all
  inputs appearing in the verified properties are ASCII.
-/

/-- JavaScript values as produced by `JSON.parse`, plus `undefined` for
missing properties. A number literal is the exact decimal `m * 10 ^ e`. -/
inductive JVal where
  | undef : JVal
  | null : JVal
  | bool : Bool → JVal
  | num : Int → Int → JVal
  | str : String → JVal
  | arr : List JVal → JVal
  | obj : List (String × JVal) → JVal

/-- Last binding of a key in an association list (later entries win, as for
duplicate keys in `JSON.parse` and for `Object.assign` merges). -/
def lookupLast (l : List (String × JVal)) (k : String) : Option JVal :=
  match l with
  | [] => none
  | (k', v) :: t =>
    match lookupLast t k with
    | some w => some w
    | none => if k' = k then some v else none

/-- Property access `v[k]` on a parsed value: `undefined` when absent or when
the value is not an object. -/
def getField (v : JVal) (k : String) : JVal :=
  match v with
  | JVal.obj fs => (lookupLast fs k).getD JVal.undef
  | _ => JVal.undef

/-- JavaScript truthiness of a runtime value. -/
def jsTruthy : JVal → Bool
  | JVal.undef => false
  | JVal.null => false
  | JVal.bool b => b
  | JVal.num m _ => m ≠ 0
  | JVal.str s => s ≠ ""
  | JVal.arr _ => true
  | JVal.obj _ => true

/-- Decimal rendering of an exact number `m * 10 ^ e`; the `e = 0` integer
case is the one exercised by the code's payloads. -/
def numToString (m e : Int) : String :=
  if e = 0 then toString m else toString m ++ "e" ++ toString e

mutual

/-- JavaScript string coercion, as performed by `messageContent += data.content`
on an arbitrary runtime value. -/
def jsToString : JVal → String
  | JVal.undef => "undefined"
  | JVal.null => "null"
  | JVal.bool true => "true"
  | JVal.bool false => "false"
  | JVal.num m e => numToString m e
  | JVal.str s => s
  | JVal.arr xs => String.intercalate "," (jsToStringElems xs)
  | JVal.obj _ => "[object Object]"

/-- Array elements under string coercion: `null` and `undefined` render empty. -/
def jsToStringElems : List JVal → List String
  | [] => []
  | JVal.undef :: t => "" :: jsToStringElems t
  | JVal.null :: t => "" :: jsToStringElems t
  | v :: t => jsToString v :: jsToStringElems t

end

/-- Whitespace of the JSON grammar (accepted by `JSON.parse` around tokens). -/
def isJsonWs (c : Char) : Bool :=
  c = ' ' || c = '\t' || c = '\n' || c = '\r'

/-- Whitespace recognized by JavaScript `\s` and `String.trim` (ASCII core
plus NBSP and BOM). -/
def isJsSpace (c : Char) : Bool :=
  c = ' ' || c = '\t' || c = '\n' || c = '\r' ||
  c = Char.ofNat 11 || c = Char.ofNat 12 || c = Char.ofNat 0xa0 ||
  c = Char.ofNat 0xfeff

/-- `String.prototype.trim()`: strip `isJsSpace` characters from both ends. -/
def jsTrim (s : String) : String :=
  String.mk (((s.data.dropWhile isJsSpace).reverse.dropWhile isJsSpace).reverse)

/-- Word characters of JavaScript regex class `\w`. -/
def isWordC (c : Char) : Bool :=
  c.isAlphanum || c = '_'

/-- Line terminators, which JavaScript regex `.` does not match. -/
def isLineTerm (c : Char) : Bool :=
  c = '\n' || c = '\r' || c = Char.ofNat 0x2028 || c = Char.ofNat 0x2029

def skipWs (l : List Char) : List Char :=
  l.dropWhile isJsonWs

def hexVal (c : Char) : Option Nat :=
  if '0' ≤ c ∧ c ≤ '9' then some (c.toNat - 48)
  else if 'a' ≤ c ∧ c ≤ 'f' then some (c.toNat - 87)
  else if 'A' ≤ c ∧ c ≤ 'F' then some (c.toNat - 55)
  else none

def natOfDigits (ds : List Char) : Nat :=
  ds.foldl (fun a c => a * 10 + (c.toNat - 48)) 0

/-- Body of a JSON string literal, after the opening quote. -/
def parseStrBody (fuel : Nat) (acc : List Char) (l : List Char) :
    Option (String × List Char) :=
  match fuel with
  | 0 => none
  | fuel + 1 =>
    match l with
    | [] => none
    | '"' :: r => some (String.mk acc.reverse, r)
    | '\\' :: e :: r =>
      match e with
      | '"' => parseStrBody fuel ('"' :: acc) r
      | '\\' => parseStrBody fuel ('\\' :: acc) r
      | '/' => parseStrBody fuel ('/' :: acc) r
      | 'b' => parseStrBody fuel (Char.ofNat 8 :: acc) r
      | 'f' => parseStrBody fuel (Char.ofNat 12 :: acc) r
      | 'n' => parseStrBody fuel ('\n' :: acc) r
      | 'r' => parseStrBody fuel ('\r' :: acc) r
      | 't' => parseStrBody fuel ('\t' :: acc) r
      | 'u' =>
        match r with
        | a :: b :: c :: d :: r' =>
          match hexVal a, hexVal b, hexVal c, hexVal d with
          | some x, some y, some z, some w =>
            parseStrBody fuel (Char.ofNat (((x * 16 + y) * 16 + z) * 16 + w) :: acc) r'
          | _, _, _, _ => none
        | _ => none
      | _ => none
    | c :: r => if c.toNat < 32 then none else parseStrBody fuel (c :: acc) r

/-- Optional fraction part of a JSON number: digits after a dot. -/
def parseFracPart : List Char → Option (List Char × List Char)
  | '.' :: r =>
    let p := r.span Char.isDigit
    if p.1 = [] then none else some p
  | l => some ([], l)

/-- Optional exponent part of a JSON number. -/
def parseExpPart : List Char → Option (Int × List Char)
  | [] => some (0, [])
  | c :: r =>
    if c = 'e' ∨ c = 'E' then
      let sp : Int × List Char :=
        match r with
        | '+' :: t => (1, t)
        | '-' :: t => (-1, t)
        | t => (1, t)
      let p := sp.2.span Char.isDigit
      if p.1 = [] then none else some (sp.1 * (natOfDigits p.1 : Int), p.2)
    else some (0, c :: r)

/-- JSON number literal, to an exact decimal. -/
def parseNum (l : List Char) : Option (JVal × List Char) :=
  let sg : Bool × List Char :=
    match l with
    | '-' :: r => (true, r)
    | _ => (false, l)
  match sg.2 with
  | [] => none
  | c :: _ =>
    if c.isDigit then
      let ip := sg.2.span Char.isDigit
      if 1 < ip.1.length ∧ ip.1.head? = some '0' then none
      else
        match parseFracPart ip.2 with
        | none => none
        | some (fds, r2) =>
          match parseExpPart r2 with
          | none => none
          | some (ex, r3) =>
            let mag : Int := (natOfDigits ip.1 * 10 ^ fds.length + natOfDigits fds : Nat)
            some (JVal.num (if sg.1 then -mag else mag) (ex - fds.length), r3)
    else none

def litChars : List Char → List Char → Option (List Char)
  | [], r => some r
  | c :: cs, r =>
    match r with
    | [] => none
    | d :: ds => if d = c then litChars cs ds else none

mutual

/-- One JSON value, fuelled recursion (the fuel is an upper bound on nesting,
always instantiated with the input length plus one). -/
def parseVal : Nat → List Char → Option (JVal × List Char)
  | 0, _ => none
  | fuel + 1, l =>
    match skipWs l with
    | [] => none
    | '{' :: r =>
      (match skipWs r with
       | '}' :: r' => some (JVal.obj [], r')
       | r' => (parseMembers fuel r').map fun p => (JVal.obj p.1, p.2))
    | '[' :: r =>
      (match skipWs r with
       | ']' :: r' => some (JVal.arr [], r')
       | r' => (parseElems fuel r').map fun p => (JVal.arr p.1, p.2))
    | '"' :: r => (parseStrBody (r.length + 1) [] r).map fun p => (JVal.str p.1, p.2)
    | 'n' :: r => (litChars ['u', 'l', 'l'] r).map fun r' => (JVal.null, r')
    | 't' :: r => (litChars ['r', 'u', 'e'] r).map fun r' => (JVal.bool true, r')
    | 'f' :: r => (litChars ['a', 'l', 's', 'e'] r).map fun r' => (JVal.bool false, r')
    | l' => parseNum l'

/-- Comma-separated array elements, up to the closing bracket. -/
def parseElems : Nat → List Char → Option (List JVal × List Char)
  | 0, _ => none
  | fuel + 1, l =>
    match parseVal fuel l with
    | none => none
    | some (v, r) =>
      match skipWs r with
      | ',' :: r' =>
        (parseElems fuel r').map fun p => (v :: p.1, p.2)
      | ']' :: r' => some ([v], r')
      | _ => none

/-- Comma-separated object members, up to the closing brace. -/
def parseMembers : Nat → List Char → Option (List (String × JVal) × List Char)
  | 0, _ => none
  | fuel + 1, l =>
    match skipWs l with
    | '"' :: r =>
      (match parseStrBody (r.length + 1) [] r with
       | none => none
       | some (k, r1) =>
         match skipWs r1 with
         | ':' :: r2 =>
           (match parseVal fuel r2 with
            | none => none
            | some (v, r3) =>
              match skipWs r3 with
              | ',' :: r4 =>
                (parseMembers fuel r4).map fun p => ((k, v) :: p.1, p.2)
              | '}' :: r4 => some ([(k, v)], r4)
              | _ => none)
         | _ => none)
    | _ => none

end

/-- `JSON.parse` on a line payload: a single value with optional surrounding
whitespace; `none` models the thrown `SyntaxError`. -/
def jsonParse (l : List Char) : Option JVal :=
  match parseVal (l.length + 1) l with
  | none => none
  | some (v, r) => if skipWs r = [] then some v else none

/-- A chat message (frontend/src/types/index.ts); `timestamp` is not
modelled and `id` is the value of the fresh-uuid counter at creation. -/
structure Message where
  id : Nat
  role : String
  content : String
  isError : Bool
deriving DecidableEq

/-- An inspector-panel action (frontend/src/types/index.ts); its `data`
payload is always the empty object at the single creation site. -/
structure AgentAction where
  action_type : String
  description : String
deriving DecidableEq

/-- Key assignment on a JavaScript object used as a map: an existing key is
overwritten in place, a new key is appended in insertion order. -/
def assocSet {β : Type} (l : List (String × β)) (k : String) (v : β) :
    List (String × β) :=
  match l with
  | [] => [(k, v)]
  | (k', v') :: t => if k' = k then (k, v) :: t else (k', v') :: assocSet t k v

/-- `Object.assign(target, updates)` on a record used as a map. -/
def assocAssign {β : Type} (l : List (String × β)) :
    List (String × β) → List (String × β)
  | [] => l
  | (k, v) :: t => assocAssign (assocSet l k v) t

/-- The chat store (frontend/src/stores/chat.ts): message list, action log,
raw memory-update record, typing flag, error slot, and the three per-session
caches backed by local storage. -/
structure ChatStore where
  sessionId : String
  messages : List Message
  agentActions : List AgentAction
  memoryUpdates : List (String × JVal)
  isTyping : Bool
  error : JVal
  sessionMessages : List (String × List Message)
  sessionActions : List (String × List AgentAction)
  sessionMemory : List (String × List (String × JVal))

def setTyping (st : ChatStore) (b : Bool) : ChatStore :=
  { st with isTyping := b }

def addMessage (st : ChatStore) (m : Message) : ChatStore :=
  { st with messages := st.messages ++ [m] }

def addAgentAction (st : ChatStore) (a : AgentAction) : ChatStore :=
  { st with agentActions := st.agentActions ++ [a] }

def updateMemory (st : ChatStore) (updates : List (String × JVal)) : ChatStore :=
  { st with memoryUpdates := assocAssign st.memoryUpdates updates }

/-- `saveCurrentSession`: persist messages, actions and memory into the
per-session caches under the store's own current session id. -/
def saveCurrentSession (st : ChatStore) : ChatStore :=
  { st with
    sessionMessages := assocSet st.sessionMessages st.sessionId st.messages,
    sessionActions := assocSet st.sessionActions st.sessionId st.agentActions,
    sessionMemory := assocSet st.sessionMemory st.sessionId st.memoryUpdates }

/-- The preferences store state (frontend/src/stores/preferences.ts). Each
field holds a raw runtime value, as the store performs no validation. -/
structure TravelPreferences where
  destination : JVal
  origin : JVal
  budget : JVal
  dates : JVal
  people_count : JVal
  dietary_preferences : JVal
  activity_preferences : JVal
  accommodation_type : JVal

/-- Initial preferences object. -/
def initialPreferences : TravelPreferences :=
  { destination := JVal.undef
    origin := JVal.undef
    budget := JVal.undef
    dates := JVal.undef
    people_count := JVal.num 1 0
    dietary_preferences := JVal.arr []
    activity_preferences := JVal.arr []
    accommodation_type := JVal.undef }

/-- Dynamic field write `preferences.value[key] = value`. -/
def updatePreference (p : TravelPreferences) (k : String) (v : JVal) :
    TravelPreferences :=
  if k = "destination" then { p with destination := v }
  else if k = "origin" then { p with origin := v }
  else if k = "budget" then { p with budget := v }
  else if k = "dates" then { p with dates := v }
  else if k = "people_count" then { p with people_count := v }
  else if k = "dietary_preferences" then { p with dietary_preferences := v }
  else if k = "activity_preferences" then { p with activity_preferences := v }
  else if k = "accommodation_type" then { p with accommodation_type := v }
  else p

/-- Dynamic field read, for stating properties of the store. -/
def getPref (p : TravelPreferences) (k : String) : JVal :=
  if k = "destination" then p.destination
  else if k = "origin" then p.origin
  else if k = "budget" then p.budget
  else if k = "dates" then p.dates
  else if k = "people_count" then p.people_count
  else if k = "dietary_preferences" then p.dietary_preferences
  else if k = "activity_preferences" then p.activity_preferences
  else if k = "accommodation_type" then p.accommodation_type
  else JVal.undef

/-- The check `key in preferences.value`: the preferences object always
carries exactly its eight declared properties. -/
def knownPrefKey (k : String) : Bool :=
  k = "destination" || k = "origin" || k = "budget" || k = "dates" ||
  k = "people_count" || k = "dietary_preferences" ||
  k = "activity_preferences" || k = "accommodation_type"

/-- `setFromMemoryUpdates`: copy every recognized key of a memory-update
record into the preferences object, in key order. -/
def setFromMemoryUpdates (p : TravelPreferences)
    (memoryUpdates : List (String × JVal)) : TravelPreferences :=
  memoryUpdates.foldl
    (fun q kv => if knownPrefKey kv.1 then updatePreference q kv.1 kv.2 else q) p

/-- A catalog entry of the sessions store
(frontend/src/stores/sessions.ts); `lastActivity` is not modelled. -/
structure ChatSession where
  id : String
  title : String
  lastMessage : Option String
  messageCount : Nat
  destination : Option JVal
  budget : Option JVal

/-- A `Partial<ChatSession>` record as passed to `updateSession`; only the
fields actually supplied at the two call sites are representable. -/
structure SessionUpdate where
  lastMessage : Option String := none
  messageCount : Option Nat := none

/-- The sessions store state: catalog plus current-session pointer. -/
structure SessionsStore where
  sessions : List ChatSession
  currentSessionId : String

/-- Mutation through `sessions.value.find(...)`: only the first entry
satisfying the predicate is updated. -/
def updateFirst {α : Type} (p : α → Bool) (f : α → α) : List α → List α
  | [] => []
  | x :: xs => if p x then f x :: xs else x :: updateFirst p f xs

/-- `updateSession`: `Object.assign(session, updates, ...)` on the first
catalog entry with the given id (a no-op when the id is absent). -/
def updateSession (st : SessionsStore) (sessionId : String)
    (updates : SessionUpdate) : SessionsStore :=
  { st with
    sessions := updateFirst (fun s => s.id = sessionId)
      (fun s =>
        { s with
          lastMessage :=
            match updates.lastMessage with
            | some v => some v
            | none => s.lastMessage
          messageCount := updates.messageCount.getD s.messageCount })
      st.sessions }

/-- `createSession`: insert a new empty session at the front of the catalog
and make it current; the generated uuid is passed in as `freshId`. -/
def createSession (st : SessionsStore) (freshId : String)
    (title : String := "New Chat") : SessionsStore :=
  { st with
    sessions :=
      { id := freshId, title := title, lastMessage := none,
        messageCount := 0, destination := none, budget := none } :: st.sessions,
    currentSessionId := freshId }

/-- `deleteSession`: refuse when at most one session remains (returning
`false`); otherwise issue a best-effort remote DELETE whose outcome
`remoteOk` is only logged, remove the session locally, and repoint the
current-session id when it was the deleted one. -/
def deleteSession (st : SessionsStore) (freshId : String) (remoteOk : Bool)
    (sessionId : String) : SessionsStore × Bool :=
  if st.sessions.length ≤ 1 then (st, false)
  else
    let _ := remoteOk
    let st1 : SessionsStore :=
      { st with sessions := st.sessions.filter (fun s => ¬ s.id = sessionId) }
    let st2 : SessionsStore :=
      if st1.currentSessionId = sessionId then
        match st1.sessions with
        | s0 :: _ => { st1 with currentSessionId := s0.id }
        | [] => createSession st1 freshId
      else st1
    (st2, true)

/-- Case-insensitive literal step of the regex engine: consume `cs` from the
head of `r` comparing lowercased characters. -/
def litCI : List Char → List Char → Option (List Char)
  | [], r => some r
  | c :: cs, r =>
    match r with
    | [] => none
    | d :: ds => if d.toLower = c.toLower then litCI cs ds else none

/-- Greedy tail `(\s+\w+)*` of the capture group; maximal-munch is exact
here because nothing follows the group in the pattern. -/
def wordTail (fuel : Nat) (l : List Char) : List Char × List Char :=
  match fuel with
  | 0 => ([], l)
  | fuel + 1 =>
    let ws := l.span isJsSpace
    if ws.1 = [] then ([], l)
    else
      let w := ws.2.span isWordC
      if w.1 = [] then ([], l)
      else
        let t := wordTail fuel w.2
        (ws.1 ++ w.1.append t.1, t.2)

/-- The capture group `(\w+(?:\s+\w+)*)` of the title regex. -/
def captureGroup (l : List Char) : Option (List Char) :=
  let w := l.span isWordC
  if w.1 = [] then none
  else some (w.1 ++ (wordTail w.2.length w.2).1)

/-- After a matched alternative: `\s+` then the capture group. -/
def wsThenCapture (l : List Char) : Option (List Char) :=
  let ws := l.span isJsSpace
  if ws.1 = [] then none else captureGroup ws.2

/-- Suffixes reachable by `.*` (which cannot cross a line terminator), in
order of increasing consumption. -/
def dotSuffixes : List Char → List (List Char)
  | [] => [[]]
  | c :: cs => (c :: cs) :: (if isLineTerm c then [] else dotSuffixes cs)

def firstSome {α β : Type} (f : α → Option β) : List α → Option β
  | [] => none
  | x :: xs =>
    match f x with
    | some y => some y
    | none => firstSome f xs

/-- Greedy `.*` (longest first) followed by case-insensitive `to`, `\s+`
and the capture group. -/
def dotStarTo (l : List Char) : Option (List Char) :=
  firstSome (fun s => (litCI ['t', 'o'] s).bind wsThenCapture)
    (dotSuffixes l).reverse

/-- One anchor position of `/(?:to|visit|trip.*to|go.*to)\s+(\w+(?:\s+\w+)*)/i`:
alternatives tried in source order, full backtracking inside each. -/
def tryMatchAt (l : List Char) : Option (List Char) :=
  ((litCI ['t', 'o'] l).bind wsThenCapture) <|>
  ((litCI ['v', 'i', 's', 'i', 't'] l).bind wsThenCapture) <|>
  ((litCI ['t', 'r', 'i', 'p'] l).bind dotStarTo) <|>
  ((litCI ['g', 'o'] l).bind dotStarTo)

/-- `title.match(travel regex)`: capture of the leftmost match, scanning
anchor positions left to right. -/
def travelMatch : List Char → Option (List Char)
  | [] => tryMatchAt []
  | c :: cs =>
    match tryMatchAt (c :: cs) with
    | some r => some r
    | none => travelMatch cs

/-- Body of `updateSessionFromMessage` applied to one catalog entry: record
the message and bump the count, and, only while the title is still the
default sentinel and the message trims non-empty, derive a title (either
the travel-intent capture or the message truncated to 30 characters). -/
def applyMessageToSession (s : ChatSession) (message : String) : ChatSession :=
  let s1 : ChatSession :=
    { s with lastMessage := some message, messageCount := s.messageCount + 1 }
  if s1.title = "New Chat" ∧ jsTrim message ≠ "" then
    let t := jsTrim message
    { s1 with
      title :=
        match travelMatch t.toList with
        | some cap => "Trip to " ++ String.mk cap
        | none => if t.length > 30 then t.take 30 ++ "..." else t }
  else s1

/-- `updateSessionFromMessage` on the catalog: applied to the first entry
with the given id. -/
def updateSessionFromMessage (st : SessionsStore) (sessionId : String)
    (message : String) : SessionsStore :=
  { st with
    sessions := updateFirst (fun s => s.id = sessionId)
      (fun s => applyMessageToSession s message) st.sessions }

/-- Global case-insensitive deletion of the filler alternatives
`plan a trip|find|show me|help me|i want to`, scanning left to right. -/
def stripTravelWords (fuel : Nat) (l : List Char) : List Char :=
  match fuel with
  | 0 => l
  | fuel + 1 =>
    match l with
    | [] => []
    | c :: cs =>
      match firstSome (fun a => litCI a (c :: cs))
          ([ "plan a trip", "find", "show me", "help me", "i want to"
           ].map String.toList) with
      | some rest => stripTravelWords fuel rest
      | none => c :: stripTravelWords fuel cs

/-- `charAt(0).toUpperCase() + slice(1)` (identity on the empty string). -/
def capitalizeFirst (s : String) : String :=
  match s.toList with
  | [] => ""
  | c :: t => String.mk (c.toUpper :: t)

/-- `updateSessionTitle` of the chat-store variant of the sessions store
(stores/sessions.ts of the bundled build): derive a concise title from the
first message, only while the title is still the default sentinel. -/
def updateSessionTitle (st : SessionsStore) (sessionId : String)
    (firstMessage : String) : SessionsStore :=
  { st with
    sessions := updateFirst (fun s => s.id = sessionId)
      (fun s =>
        if s.title = "New Chat" then
          let t1 := jsTrim firstMessage
          let t2 := jsTrim (String.mk (stripTravelWords t1.length t1.toList))
          let t3 := capitalizeFirst t2
          let t4 := if t3.length > 30 then t3.take 30 ++ "..." else t3
          { s with title := if t4 = "" then "Travel Planning" else t4 }
        else s)
      st.sessions }

/-- Normalization of an action description into an action type:
`description.toLowerCase().replace(/\s+/g, '_')`. -/
def squashWsAux (inWs : Bool) : List Char → List Char
  | [] => []
  | c :: cs =>
    if isJsSpace c then
      if inWs then squashWsAux true cs else '_' :: squashWsAux true cs
    else c :: squashWsAux false cs

def normalizeActionType (d : String) : String :=
  String.mk (squashWsAux false (d.toList.map Char.toLower))

/-- The preview stored on `complete`:
`messages[messages.length - 1]?.content.substring(0, 50) + '...'`. The
ellipsis is appended unconditionally; on an empty list the optional chain
yields `undefined`, which string concatenation renders literally (the
trailing `|| ''` can then never fire, the string being non-empty). -/
def lastPreview (msgs : List Message) : String :=
  match msgs.getLast? with
  | some m => m.content.take 50 ++ "..."
  | none => "undefined..."

/-- State local to one run of `sendMessage`'s streaming loop, paired with
the three stores it mutates. `stopped` records that a `complete` or `error`
event has executed `return`, after which no further event is applied. -/
structure StreamState where
  chat : ChatStore
  prefs : TravelPreferences
  sessions : SessionsStore
  buffer : List Char
  currentMessage : Option Message
  messageContent : String
  freshId : Nat
  stopped : Bool

/-- The event switch of the streaming loop, applied to one parsed payload.
`sid` is the `sessionId` argument of `sendMessage`. An `action` event whose
`description` is not a string throws on `.toLowerCase()` before any
mutation; the surrounding catch then discards the line, leaving the state
unchanged, which the non-string branch models. -/
def applyEvent (sid : String) (st : StreamState) (data : JVal) : StreamState :=
  match getField data "type" with
  | JVal.str "start" =>
    { st with chat := setTyping st.chat true }
  | JVal.str "action" =>
    (match getField data "description" with
     | JVal.str d =>
       let a : AgentAction := { action_type := normalizeActionType d, description := d }
       { st with chat := addAgentAction st.chat a }
     | _ => st)
  | JVal.str "memory" =>
    let u := getField data "updates"
    if jsTruthy u then
      let fs :=
        match u with
        | JVal.obj l => l
        | _ => []
      { st with
        chat := updateMemory st.chat fs,
        prefs := setFromMemoryUpdates st.prefs fs }
    else st
  | JVal.str "response_start" =>
    let m : Message :=
      { id := st.freshId, role := "assistant", content := "", isError := false }
    { st with
      chat := setTyping (addMessage st.chat m) false,
      currentMessage := some m,
      messageContent := "",
      freshId := st.freshId + 1 }
  | JVal.str "token" =>
    (match st.currentMessage with
     | some cm =>
       let mc := st.messageContent ++ jsToString (getField data "content")
       let cm' : Message := { cm with content := mc }
       let idx := st.chat.messages.findIdx (fun m => m.id = cm.id)
       let msgs :=
         if idx < st.chat.messages.length
         then st.chat.messages.set idx cm'
         else st.chat.messages
       { st with
         chat := { st.chat with messages := msgs },
         currentMessage := some cm',
         messageContent := mc }
     | none => st)
  | JVal.str "complete" =>
    let chat1 := saveCurrentSession (setTyping st.chat false)
    { st with
      chat := chat1,
      sessions := updateSession st.sessions sid
        { messageCount := some chat1.messages.length,
          lastMessage := some (lastPreview chat1.messages) },
      stopped := true }
  | JVal.str "error" =>
    let msgVal := getField data "message"
    let content :=
      if jsTruthy msgVal then jsToString msgVal
      else "Sorry, I encountered an error. Please try again."
    let chat1 :=
      addMessage { setTyping st.chat false with error := msgVal }
        { id := st.freshId, role := "assistant", content := content,
          isError := true }
    { st with chat := chat1, freshId := st.freshId + 1, stopped := true }
  | _ => st

/-- One event application inside the loop; once the loop has returned,
later events of the same stream are never reached. -/
def stepEvent (sid : String) (st : StreamState) (data : JVal) : StreamState :=
  if st.stopped then st else applyEvent sid st data

def processEvents (sid : String) (st : StreamState) (evs : List JVal) :
    StreamState :=
  evs.foldl (stepEvent sid) st

/-- `line.startsWith(tag)`, on character lists. -/
def jsStartsWith : List Char → List Char → Bool
  | [], _ => true
  | _ :: _, [] => false
  | c :: cs, d :: ds => c = d && jsStartsWith cs ds

/-- One line of the loop body: only `data: `-tagged lines are considered,
empty payloads are skipped, and a payload `JSON.parse` rejects is logged
and discarded without aborting the stream. -/
def processLine (sid : String) (st : StreamState) (line : List Char) :
    StreamState :=
  if st.stopped then st
  else if jsStartsWith ("data: ".toList) line then
    let eventData := line.drop 6
    if jsTrim (String.mk eventData) = "" then st
    else
      match jsonParse eventData with
      | none => st
      | some data => applyEvent sid st data
  else st

def processLines (sid : String) (st : StreamState) (lines : List (List Char)) :
    StreamState :=
  lines.foldl (processLine sid) st

/-- `buffer.split('\n')`: the result is non-empty and its last element is
the buffered-but-incomplete trailing line. -/
def splitNl : List Char → List (List Char)
  | [] => [[]]
  | c :: cs =>
    if c = '\n' then [] :: splitNl cs
    else
      match splitNl cs with
      | [] => [[c]]
      | l :: ls => (c :: l) :: ls

/-- One read of the stream: append the decoded chunk to the buffer, split on
newlines, keep the incomplete trailing line as the new buffer, and process
every complete line. -/
def processChunk (sid : String) (st : StreamState) (chunk : List Char) :
    StreamState :=
  if st.stopped then st
  else
    let parts := splitNl (st.buffer ++ chunk)
    processLines sid { st with buffer := (parts.getLast?).getD [] }
      parts.dropLast

def processStream (sid : String) (st : StreamState) (chunks : List (List Char)) :
    StreamState :=
  chunks.foldl (processChunk sid) st

/-- Transport behaviour of the streaming POST, as observed by the loop:
outright failure (network error or non-2xx status), a stream delivered to
end-of-data, or a stream interrupted by a read error after some chunks. -/
inductive Transport where
  | failure : Transport
  | ok : List (List Char) → Transport
  | interrupted : List (List Char) → Transport

/-- Fresh loop state over the three stores. -/
def initStream (chat : ChatStore) (prefs : TravelPreferences)
    (sessions : SessionsStore) (freshId : Nat) : StreamState :=
  { chat := chat, prefs := prefs, sessions := sessions, buffer := [],
    currentMessage := none, messageContent := "", freshId := freshId,
    stopped := false }

/-- The generic-failure handler of `sendMessage`'s catch block. -/
def transportCatch (st : StreamState) : StreamState :=
  let chat1 :=
    addMessage
      { setTyping st.chat false with
        error := JVal.str "Failed to send message. Please try again." }
      { id := st.freshId, role := "assistant",
        content := "Sorry, I encountered an error sending your message. Please try again.",
        isError := true }
  { st with chat := chat1, freshId := st.freshId + 1 }

/-- The try block of `sendMessage` from the fetch onward: consume the
stream to its end, fall into the catch block on a transport failure unless
the loop had already returned, and report that the POST was issued. -/
def streamPhase (sid : String) (st0 : StreamState) (transport : Transport) :
    StreamState × Bool :=
  match transport with
  | Transport.failure => (transportCatch st0, true)
  | Transport.ok chunks => (processStream sid st0 chunks, true)
  | Transport.interrupted chunks =>
    let st1 := processStream sid st0 chunks
    if st1.stopped then (st1, true) else (transportCatch st1, true)

/-- `sendMessage` of the `useChat` composable. Returns the final state and
whether the streaming POST was issued. A blank message returns before any
mutation; otherwise the user message is appended, session metadata is
updated, typing is set, and the stream phase runs. -/
def sendMessage (chat : ChatStore) (prefs : TravelPreferences)
    (sessions : SessionsStore) (freshId : Nat) (sid : String)
    (content : String) (transport : Transport) : StreamState × Bool :=
  if jsTrim content = "" then (initStream chat prefs sessions freshId, false)
  else
    let chat1 := addMessage chat
      { id := freshId, role := "user", content := jsTrim content, isError := false }
    let sessions1 :=
      if chat1.messages.length ≤ 2 then updateSessionTitle sessions sid content
      else sessions
    let sessions2 := updateSession sessions1 sid
      { lastMessage :=
          some (if content.length > 50 then content.take 50 ++ "..." else content),
        messageCount := some chat1.messages.length }
    streamPhase sid (initStream (setTyping chat1 true) prefs sessions2 (freshId + 1))
      transport

/-- Concatenation of token payloads in arrival order. -/
def concatS : List String → String
  | [] => ""
  | s :: t => s ++ concatS t

/-- Read access on a JavaScript object used as a map (keys kept unique by
`assocSet`). -/
def assocGet {β : Type} : List (String × β) → String → Option β
  | [], _ => none
  | (k', v) :: t, k => if k' = k then some v else assocGet t k

/-- A parsed `token` event payload carrying `v` as its `content`. -/
def tokenEv (v : JVal) : JVal :=
  JVal.obj [("type", JVal.str "token"), ("content", v)]

/-- A parsed `response_start` event payload. -/
def respStartEv : JVal :=
  JVal.obj [("type", JVal.str "response_start")]

/-- A parsed `complete` event payload. -/
def completeEv : JVal :=
  JVal.obj [("type", JVal.str "complete")]

/-- A minimal concrete chat store used by witnesses. -/
def demoChat : ChatStore :=
  { sessionId := "s1", messages := [], agentActions := [], memoryUpdates := [],
    isTyping := false, error := JVal.null, sessionMessages := [],
    sessionActions := [], sessionMemory := [] }

/-- A concrete fresh catalog entry used by witnesses. -/
def demoSession : ChatSession :=
  { id := "s1", title := "New Chat", lastMessage := none,
    messageCount := 0, destination := none, budget := none }

/-- A concrete one-session catalog used by witnesses. -/
def demoSessions : SessionsStore :=
  { sessions := [demoSession], currentSessionId := "s1" }

/-- The wire form of the specification scenario
`start, response_start, token("Hel"), token("lo"), complete`. -/
def scenarioChunk : List Char :=
  ("data: \x7b\"type\": \"start\"\x7d\n" ++
   "data: \x7b\"type\": \"response_start\"\x7d\n" ++
   "data: \x7b\"type\": \"token\", \"content\": \"Hel\"\x7d\n" ++
   "data: \x7b\"type\": \"token\", \"content\": \"lo\"\x7d\n" ++
   "data: \x7b\"type\": \"complete\"\x7d\n").toList

/-- Count of how often a sequence of `updateSessionFromMessage` calls
actually changes a session's title. -/
def titleChanges (s : ChatSession) : List String → Nat
  | [] => 0
  | m :: ms =>
    let s' := applyMessageToSession s m
    (if s'.title = s.title then 0 else 1) + titleChanges s' ms

/-- C9: a blank message is a complete no-op: no user message, no request,
no store or flag change. -/
theorem sendMessage_blank_noop (chat : ChatStore) (prefs : TravelPreferences)
    (sessions : SessionsStore) (freshId : Nat) (sid : String)
    (content : String) (transport : Transport) (h : jsTrim content = "") :
    sendMessage chat prefs sessions freshId sid content transport =
      (initStream chat prefs sessions freshId, false) := by
  unfold sendMessage
  rw [if_pos h]

theorem sendMessage_blank_noop_witness :
    sendMessage demoChat initialPreferences demoSessions 0 "s1" "   "
        Transport.failure =
      (initStream demoChat initialPreferences demoSessions 0, false) :=
  sendMessage_blank_noop demoChat initialPreferences demoSessions 0 "s1" "   "
    Transport.failure (by decide)

/-- C10: a `token` event arriving while no assistant message is in progress
is silently ignored: the state is unchanged. -/
theorem token_without_current_ignored (sid : String) (st : StreamState)
    (v : JVal) (h : st.currentMessage = none) :
    stepEvent sid st (tokenEv v) = st := by
  unfold stepEvent
  by_cases hs : st.stopped
  · simp [hs]
  · simp [hs, applyEvent, tokenEv, getField, lookupLast, h]

theorem token_without_current_ignored_witness :
    stepEvent "s1" (initStream demoChat initialPreferences demoSessions 0)
      (tokenEv (JVal.str "Hel")) =
      initStream demoChat initialPreferences demoSessions 0 :=
  token_without_current_ignored "s1"
    (initStream demoChat initialPreferences demoSessions 0)
    (JVal.str "Hel") rfl

/-- C7: deleting the sole session of a catalog leaves the catalog unchanged
and reports failure; with at least two sessions the entry is removed locally
even when the remote DELETE fails. -/
theorem deleteSession_claims (st : SessionsStore) (fresh : String)
    (rOk : Bool) (sid : String) :
    (st.sessions.length = 1 → deleteSession st fresh rOk sid = (st, false)) ∧
    (2 ≤ st.sessions.length → fresh ≠ sid →
      ∀ s ∈ (deleteSession st fresh false sid).1.sessions, s.id ≠ sid) := by
  constructor
  · intro h1
    unfold deleteSession
    rw [if_pos (by omega)]
  · intro h2 hfr s hs
    unfold deleteSession at hs
    rw [if_neg (by omega)] at hs
    simp only at hs
    by_cases hcur : st.currentSessionId = sid
    · rw [if_pos hcur] at hs
      rcases hfilter : st.sessions.filter (fun s => ¬ s.id = sid) with _ | ⟨s0, rest⟩ <;>
        rw [hfilter] at hs
      · simp only [createSession] at hs
        simp only [hfilter, List.mem_singleton] at hs
        subst hs
        exact hfr
      · simp only [hfilter] at hs
        have := List.of_mem_filter (hfilter ▸ hs)
        simpa using this
    · rw [if_neg hcur] at hs
      have := List.of_mem_filter hs
      simpa using this

theorem deleteSession_claims_witness :
    deleteSession demoSessions "f1" true "s1" = (demoSessions, false) :=
  (deleteSession_claims demoSessions "f1" true "s1").1 (by decide)

theorem getPref_update_same (p : TravelPreferences) (k : String) (v : JVal)
    (hk : knownPrefKey k = true) :
    getPref (updatePreference p k v) k = v := by
  unfold knownPrefKey at hk
  simp only [Bool.or_eq_true, decide_eq_true_eq] at hk
  rcases hk with ((((((h | h) | h) | h) | h) | h) | h) | h <;>
    subst h <;> simp [updatePreference, getPref]

set_option maxHeartbeats 1600000 in
theorem getPref_update_other (p : TravelPreferences) (k' k : String) (v : JVal)
    (hne : k' ≠ k) (hk : knownPrefKey k = true) :
    getPref (updatePreference p k' v) k = getPref p k := by
  unfold knownPrefKey at hk
  simp only [Bool.or_eq_true, decide_eq_true_eq] at hk
  rcases hk with ((((((h | h) | h) | h) | h) | h) | h) | h <;> subst h
  · unfold updatePreference
    split_ifs <;> first | (exact absurd (by assumption) hne) | simp [getPref]
  · unfold updatePreference
    split_ifs <;> first | (exact absurd (by assumption) hne) | simp [getPref]
  · unfold updatePreference
    split_ifs <;> first | (exact absurd (by assumption) hne) | simp [getPref]
  · unfold updatePreference
    split_ifs <;> first | (exact absurd (by assumption) hne) | simp [getPref]
  · unfold updatePreference
    split_ifs <;> first | (exact absurd (by assumption) hne) | simp [getPref]
  · unfold updatePreference
    split_ifs <;> first | (exact absurd (by assumption) hne) | simp [getPref]
  · unfold updatePreference
    split_ifs <;> first | (exact absurd (by assumption) hne) | simp [getPref]
  · unfold updatePreference
    split_ifs <;> first | (exact absurd (by assumption) hne) | simp [getPref]

theorem lookupLast_cons_eval (k1 k : String) (v : JVal)
    (t : List (String × JVal)) :
    lookupLast ((k1, v) :: t) k =
      match lookupLast t k with
      | some w => some w
      | none => if k1 = k then some v else none := rfl

theorem setFromMemoryUpdates_merge (p : TravelPreferences)
    (u : List (String × JVal)) (k : String) (hk : knownPrefKey k = true) :
    getPref (setFromMemoryUpdates p u) k =
      (lookupLast u k).getD (getPref p k) := by
  induction u generalizing p with
  | nil => rfl
  | cons kv t ih =>
    obtain ⟨k1, v⟩ := kv
    have hstep : setFromMemoryUpdates p ((k1, v) :: t) =
        setFromMemoryUpdates
          (if knownPrefKey k1 then updatePreference p k1 v else p) t := rfl
    rw [hstep, ih, lookupLast_cons_eval]
    rcases hlt : lookupLast t k with _ | w
    · simp only [Option.getD_none]
      by_cases hkk : k1 = k
      · subst hkk
        rw [if_pos rfl]
        simp only [Option.getD_some]
        rw [if_pos hk, getPref_update_same p k1 v hk]
      · rw [if_neg hkk]
        simp only [Option.getD_none]
        by_cases hkn : knownPrefKey k1 = true
        · rw [if_pos hkn, getPref_update_other p k1 k v hkk hk]
        · rw [if_neg hkn]
    · simp

/-- C8: memory updates merge rather than replace: a key present in an
update overwrites that key, an absent key keeps its previous value; the
update `destination = Goa` followed by `budget = 25000` retains both. -/
theorem memory_updates_merge (p : TravelPreferences)
    (u : List (String × JVal)) (k : String) (hk : knownPrefKey k = true) :
    (getPref (setFromMemoryUpdates p u) k =
       (lookupLast u k).getD (getPref p k)) ∧
    setFromMemoryUpdates
        (setFromMemoryUpdates initialPreferences [("destination", JVal.str "Goa")])
        [("budget", JVal.num 25000 0)] =
      { initialPreferences with
        destination := JVal.str "Goa", budget := JVal.num 25000 0 } :=
  ⟨setFromMemoryUpdates_merge p u k hk, rfl⟩

theorem memory_updates_merge_witness :
    getPref (setFromMemoryUpdates initialPreferences
        [("destination", JVal.str "Goa")]) "destination" = JVal.str "Goa" := by
  have h := (memory_updates_merge initialPreferences
    [("destination", JVal.str "Goa")] "destination" (by decide)).1
  simpa using h

theorem applyMessage_keeps_title (s : ChatSession) (m : String)
    (h : ¬ s.title = "New Chat") :
    (applyMessageToSession s m).title = s.title := by
  simp only [applyMessageToSession]
  rw [if_neg (fun hc => h hc.1)]

theorem title_change_requires (s : ChatSession) (m : String)
    (h : (applyMessageToSession s m).title ≠ s.title) :
    s.title = "New Chat" ∧ jsTrim m ≠ "" := by
  by_cases hc : s.title = "New Chat" ∧ jsTrim m ≠ ""
  · exact hc
  · exfalso
    apply h
    simp only [applyMessageToSession]
    rw [if_neg hc]

theorem titleChanges_frozen (ms : List String) (s : ChatSession)
    (h : ¬ s.title = "New Chat") : titleChanges s ms = 0 := by
  induction ms generalizing s with
  | nil => rfl
  | cons m t ih =>
    have hk := applyMessage_keeps_title s m h
    have ht : titleChanges (applyMessageToSession s m) t = 0 :=
      ih (applyMessageToSession s m) (by rw [hk]; exact h)
    simp only [titleChanges, hk, if_pos, ht]

theorem titleChanges_le_one (ms : List String) (s : ChatSession) :
    titleChanges s ms ≤ 1 := by
  induction ms generalizing s with
  | nil => exact Nat.zero_le 1
  | cons m t ih =>
    show (if (applyMessageToSession s m).title = s.title then 0 else 1) +
      titleChanges (applyMessageToSession s m) t ≤ 1
    by_cases hc : (applyMessageToSession s m).title = s.title
    · rw [if_pos hc]
      simpa using ih (applyMessageToSession s m)
    · rw [if_neg hc]
      have h2 := title_change_requires s m hc
      have h3 : ¬ (applyMessageToSession s m).title = "New Chat" :=
        fun he => hc (he.trans h2.1.symm)
      rw [titleChanges_frozen t _ h3]

/-- C3: the title auto-derivation changes a session's title at most once
over any sequence of messages; it changes the title only while the title
still equals the sentinel and the message trims non-empty, and never
touches a non-default title. -/
theorem title_set_at_most_once (s : ChatSession) (ms : List String)
    (m : String) :
    titleChanges s ms ≤ 1 ∧
    (¬ s.title = "New Chat" → (applyMessageToSession s m).title = s.title) ∧
    ((applyMessageToSession s m).title ≠ s.title →
      s.title = "New Chat" ∧ jsTrim m ≠ "") :=
  ⟨titleChanges_le_one ms s, applyMessage_keeps_title s m,
    title_change_requires s m⟩

theorem title_set_at_most_once_witness :
    (applyMessageToSession
      { id := "s1", title := "Trip to Goa", lastMessage := none,
        messageCount := 1, destination := none, budget := none }
      "now visit Paris").title = "Trip to Goa" :=
  (title_set_at_most_once
    { id := "s1", title := "Trip to Goa", lastMessage := none,
      messageCount := 1, destination := none, budget := none }
    [] "now visit Paris").2.1 (by decide)

theorem jsStartsWith_append (l r : List Char) :
    jsStartsWith l (l ++ r) = true := by
  induction l with
  | nil => rfl
  | cons c cs ih => simp [jsStartsWith, ih]

theorem processLine_malformed (sid : String) (st : StreamState)
    (bad : List Char) (h : jsonParse bad = none) :
    processLine sid st ("data: ".toList ++ bad) = st := by
  unfold processLine
  by_cases hs : st.stopped
  · rw [if_pos hs]
  · rw [if_neg hs, if_pos (jsStartsWith_append "data: ".toList bad)]
    have hdrop : ("data: ".toList ++ bad).drop 6 = bad :=
      List.drop_left "data: ".toList bad
    rw [hdrop]
    by_cases ht : jsTrim (String.mk bad) = ""
    · rw [if_pos ht]
    · rw [if_neg ht, h]

/-- C4: a line whose payload fails to parse, placed between two other
lines, is discarded without affecting how the surrounding lines are
applied, and the stream loop continues normally past it. -/
theorem malformed_line_discarded (sid : String) (st : StreamState)
    (l1 l2 bad : List Char) (h : jsonParse bad = none) :
    processLines sid st [l1, "data: ".toList ++ bad, l2] =
      processLines sid st [l1, l2] := by
  unfold processLines
  simp only [List.foldl_cons, List.foldl_nil]
  rw [processLine_malformed sid _ bad h]

theorem malformed_line_discarded_witness :
    processLines "s1" (initStream demoChat initialPreferences demoSessions 0)
      [ "data: \x7b\"type\": \"start\"\x7d".toList,
        "data: ".toList ++ "\x7boops".toList,
        "data: \x7b\"type\": \"response_start\"\x7d".toList ] =
    processLines "s1" (initStream demoChat initialPreferences demoSessions 0)
      [ "data: \x7b\"type\": \"start\"\x7d".toList,
        "data: \x7b\"type\": \"response_start\"\x7d".toList ] :=
  malformed_line_discarded "s1"
    (initStream demoChat initialPreferences demoSessions 0)
    "data: \x7b\"type\": \"start\"\x7d".toList
    "data: \x7b\"type\": \"response_start\"\x7d".toList
    "\x7boops".toList rfl

theorem splitNl_no_nl (xs : List Char) (h : '\n' ∉ xs) : splitNl xs = [xs] := by
  induction xs with
  | nil => rfl
  | cons c cs ih =>
    unfold splitNl
    rw [if_neg (fun hc : c = '\n' => h (by rw [hc]; exact List.mem_cons_self _ _)),
      ih (fun hm => h (List.mem_cons_of_mem c hm))]

theorem splitNl_append_nl (xs ys : List Char) (h : '\n' ∉ xs) :
    splitNl (xs ++ '\n' :: ys) = xs :: splitNl ys := by
  induction xs with
  | nil => simp [splitNl]
  | cons c cs ih =>
    show splitNl (c :: (cs ++ '\n' :: ys)) = (c :: cs) :: splitNl ys
    simp only [splitNl]
    rw [if_neg (fun hc : c = '\n' => h (by rw [hc]; exact List.mem_cons_self _ _)),
      ih (fun hm => h (List.mem_cons_of_mem c hm))]

/-- C5: an event line split across two consecutive chunks at any position
is processed exactly as the unsplit line: the incomplete tail is carried in
the buffer and no line is dropped or duplicated. -/
theorem split_line_equivalent (sid : String) (st : StreamState)
    (l : List Char) (i : Nat) (hbuf : '\n' ∉ st.buffer) (hl : '\n' ∉ l) :
    processStream sid st [l.take i, l.drop i ++ ['\n']] =
      processStream sid st [l ++ ['\n']] := by
  unfold processStream
  simp only [List.foldl_cons, List.foldl_nil]
  by_cases hs : st.stopped
  · unfold processChunk
    rw [if_pos hs, if_pos hs, if_pos hs]
  · have hnl : '\n' ∉ st.buffer ++ l := by
      intro hm
      rcases List.mem_append.mp hm with h' | h'
      exacts [hbuf h', hl h']
    have hnn : '\n' ∉ st.buffer ++ l.take i := by
      intro hm
      rcases List.mem_append.mp hm with h' | h'
      exacts [hbuf h', hl (List.mem_of_mem_take h')]
    have h1 : processChunk sid st (l.take i) =
        { st with buffer := st.buffer ++ l.take i } := by
      unfold processChunk
      rw [if_neg hs, splitNl_no_nl _ hnn]
      rfl
    have hgl : (st.buffer ++ l.take i) ++ (l.drop i ++ ['\n']) =
        (st.buffer ++ l) ++ '\n' :: ([] : List Char) := by
      rw [List.append_assoc st.buffer, ← List.append_assoc (l.take i),
        List.take_append_drop, ← List.append_assoc]
    have hsplit2 : splitNl ((st.buffer ++ l.take i) ++ (l.drop i ++ ['\n'])) =
        [st.buffer ++ l, []] := by
      rw [hgl, splitNl_append_nl _ _ hnl]
      rfl
    have hsplit1 : splitNl (st.buffer ++ (l ++ ['\n'])) =
        [st.buffer ++ l, []] := by
      rw [show st.buffer ++ (l ++ ['\n']) =
            (st.buffer ++ l) ++ '\n' :: ([] : List Char) from
          (List.append_assoc st.buffer l ['\n']).symm]
      rw [splitNl_append_nl _ _ hnl]
      rfl
    rw [h1]
    unfold processChunk
    rw [if_neg hs, if_neg hs, hsplit2, hsplit1]

theorem split_line_equivalent_witness :
    processStream "s1" (initStream demoChat initialPreferences demoSessions 0)
      [("data: \x7b\"type\": \"response_start\"\x7d".toList).take 11,
       ("data: \x7b\"type\": \"response_start\"\x7d".toList).drop 11 ++ ['\n']] =
    processStream "s1" (initStream demoChat initialPreferences demoSessions 0)
      ["data: \x7b\"type\": \"response_start\"\x7d".toList ++ ['\n']] :=
  split_line_equivalent "s1"
    (initStream demoChat initialPreferences demoSessions 0)
    ("data: \x7b\"type\": \"response_start\"\x7d".toList) 11
    (by decide) (by decide)

theorem stepEvent_typing (sid : String) (st : StreamState) (d : JVal)
    (h : st.stopped = true → st.chat.isTyping = false) :
    (stepEvent sid st d).stopped = true →
      (stepEvent sid st d).chat.isTyping = false := by
  unfold stepEvent
  by_cases hs : st.stopped
  · rw [if_pos hs]
    exact h
  · rw [if_neg hs]
    unfold applyEvent
    split <;> (try split) <;> (try (dsimp only; split_ifs)) <;>
      first
        | (intro _; rfl)
        | (intro hst; exact absurd hst hs)

theorem processLine_typing (sid : String) (st : StreamState) (line : List Char)
    (h : st.stopped = true → st.chat.isTyping = false) :
    (processLine sid st line).stopped = true →
      (processLine sid st line).chat.isTyping = false := by
  unfold processLine
  by_cases hs : st.stopped
  · rw [if_pos hs]
    exact h
  · rw [if_neg hs]
    by_cases hp : jsStartsWith ("data: ".toList) line
    · rw [if_pos hp]
      dsimp only
      by_cases ht : jsTrim (String.mk (line.drop 6)) = ""
      · rw [if_pos ht]
        exact h
      · rw [if_neg ht]
        split
        · exact h
        · rename_i data _
          have h2 := stepEvent_typing sid st data h
          unfold stepEvent at h2
          rw [if_neg hs] at h2
          exact h2
    · rw [if_neg hp]
      exact h

theorem processLines_typing (sid : String) (lines : List (List Char)) :
    ∀ (st : StreamState), (st.stopped = true → st.chat.isTyping = false) →
    (processLines sid st lines).stopped = true →
      (processLines sid st lines).chat.isTyping = false := by
  induction lines with
  | nil => exact fun st h => h
  | cons line t ih =>
    intro st h
    exact ih (processLine sid st line) (processLine_typing sid st line h)

theorem processChunk_typing (sid : String) (st : StreamState)
    (chunk : List Char)
    (h : st.stopped = true → st.chat.isTyping = false) :
    (processChunk sid st chunk).stopped = true →
      (processChunk sid st chunk).chat.isTyping = false := by
  unfold processChunk
  by_cases hs : st.stopped
  · rw [if_pos hs]
    exact h
  · rw [if_neg hs]
    exact processLines_typing sid _ _ h

theorem processStream_typing (sid : String) (chunks : List (List Char)) :
    ∀ (st : StreamState), (st.stopped = true → st.chat.isTyping = false) →
    (processStream sid st chunks).stopped = true →
      (processStream sid st chunks).chat.isTyping = false := by
  induction chunks with
  | nil => exact fun st h => h
  | cons c t ih =>
    intro st h
    exact ih (processChunk sid st c) (processChunk_typing sid st c h)

theorem streamPhase_typing (sid : String) (st0 : StreamState)
    (transport : Transport)
    (h0 : st0.stopped = true → st0.chat.isTyping = false) :
    (transport = Transport.failure →
      (streamPhase sid st0 transport).1.chat.isTyping = false) ∧
    ((streamPhase sid st0 transport).1.stopped = true →
      (streamPhase sid st0 transport).1.chat.isTyping = false) ∧
    (∀ cs, transport = Transport.interrupted cs →
      (streamPhase sid st0 transport).1.chat.isTyping = false) := by
  rcases transport with _ | chunks | chunks
  · exact ⟨fun _ => rfl, fun _ => rfl, fun cs heq => Transport.noConfusion heq⟩
  · exact ⟨fun heq => Transport.noConfusion heq,
      processStream_typing sid chunks st0 h0,
      fun cs heq => Transport.noConfusion heq⟩
  · have hinv := processStream_typing sid chunks st0 h0
    refine ⟨fun heq => Transport.noConfusion heq, ?_, fun cs _ => ?_⟩
    · intro hst
      unfold streamPhase at hst ⊢
      dsimp only at hst ⊢
      split at hst
      · next hstop =>
        split
        · exact hinv hstop
        · next hstop2 => exact absurd hstop hstop2
      · next hstop =>
        exact absurd hst hstop
    · unfold streamPhase
      dsimp only
      split
      · next hstop => exact hinv hstop
      · rfl

theorem sendMessage_runs_streamPhase (chat : ChatStore)
    (prefs : TravelPreferences) (sessions : SessionsStore) (freshId : Nat)
    (sid content : String) (transport : Transport)
    (h : jsTrim content ≠ "") :
    ∃ st0, sendMessage chat prefs sessions freshId sid content transport =
        streamPhase sid st0 transport ∧ st0.stopped = false := by
  unfold sendMessage
  rw [if_neg h]
  exact ⟨_, rfl, rfl⟩

/-- C2 is refuted as stated: when the transport succeeds but the stream
signals end-of-data before any `response_start`, `complete` or `error`
event, `sendMessage` returns with the typing indicator still true — the
loop's `done` branch performs no cleanup. Concretely, a non-blank message
sent over a stream that closes with zero events leaves typing true. -/
theorem typing_left_true_on_empty_stream :
    (sendMessage demoChat initialPreferences demoSessions 0 "s1" "Hi"
      (Transport.ok [])).1.chat.isTyping = true := rfl

/-- C2 (amended): the typing indicator is false on the `complete`-event and
`error`-event termination paths (those set `stopped`) and on every
transport-failure path, whether the failure precedes or interrupts the
stream; only the plain end-of-data path can return with typing still true. -/
theorem typing_cleared_on_terminal_paths (chat : ChatStore)
    (prefs : TravelPreferences) (sessions : SessionsStore) (freshId : Nat)
    (sid content : String) (transport : Transport)
    (h : jsTrim content ≠ "") :
    (transport = Transport.failure →
      (sendMessage chat prefs sessions freshId sid content
        transport).1.chat.isTyping = false) ∧
    ((sendMessage chat prefs sessions freshId sid content
        transport).1.stopped = true →
      (sendMessage chat prefs sessions freshId sid content
        transport).1.chat.isTyping = false) ∧
    (∀ cs, transport = Transport.interrupted cs →
      (sendMessage chat prefs sessions freshId sid content
        transport).1.chat.isTyping = false) := by
  obtain ⟨st0, heq, hstop⟩ := sendMessage_runs_streamPhase chat prefs sessions
    freshId sid content transport h
  rw [heq]
  exact streamPhase_typing sid st0 transport
    (fun hst => absurd hst (by rw [hstop]; exact Bool.false_ne_true))

theorem typing_cleared_on_terminal_paths_witness :
    (sendMessage demoChat initialPreferences demoSessions 0 "s1" "Hi"
      Transport.failure).1.chat.isTyping = false :=
  (typing_cleared_on_terminal_paths demoChat initialPreferences demoSessions
    0 "s1" "Hi" Transport.failure (by decide)).1 rfl

theorem applyEvent_token (sid : String) (st : StreamState) (t : String) :
    applyEvent sid st (tokenEv (JVal.str t)) =
      match st.currentMessage with
      | some cm =>
        { st with
          chat := { st.chat with messages :=
            (if st.chat.messages.findIdx (fun x => x.id = cm.id) <
                st.chat.messages.length
             then List.set st.chat.messages
                (st.chat.messages.findIdx (fun x => x.id = cm.id))
                { cm with content := st.messageContent ++ t }
             else st.chat.messages) },
          currentMessage := some { cm with content := st.messageContent ++ t },
          messageContent := st.messageContent ++ t }
      | none => st := rfl

theorem applyEvent_response_start (sid : String) (st : StreamState) :
    applyEvent sid st respStartEv =
      { st with
        chat := setTyping (addMessage st.chat
          { id := st.freshId, role := "assistant", content := "",
            isError := false }) false,
        currentMessage := some
          { id := st.freshId, role := "assistant", content := "",
            isError := false },
        messageContent := "",
        freshId := st.freshId + 1 } := rfl

theorem findIdx_append_self (pre : List Message) (m : Message)
    (h : ∀ x ∈ pre, x.id ≠ m.id) :
    (pre ++ [m]).findIdx (fun x => x.id = m.id) = pre.length := by
  induction pre with
  | nil => simp [List.findIdx_cons]
  | cons x xs ih =>
    have hx : x.id ≠ m.id := h x (List.mem_cons_self x xs)
    simp only [List.cons_append, List.findIdx_cons, hx, decide_False,
      cond_false, List.length_cons]
    rw [ih (fun y hy => h y (List.mem_cons_of_mem x hy))]

theorem set_append_self (pre : List Message) (m m' : Message) :
    (pre ++ [m]).set pre.length m' = pre ++ [m'] := by
  rw [List.set_append]
  simp

theorem tokens_fold (sid : String) (toks : List String) :
    ∀ (st : StreamState) (pre : List Message) (m : Message),
    st.stopped = false → st.currentMessage = some m →
    st.chat.messages = pre ++ [m] → st.messageContent = m.content →
    (∀ x ∈ pre, x.id ≠ m.id) →
    (processEvents sid st
        (toks.map (fun s => tokenEv (JVal.str s)))).chat.messages =
      pre ++ [{ m with content := m.content ++ concatS toks }] := by
  induction toks with
  | nil =>
    intro st pre m hs hcm hmsg hmc hids
    simp only [List.map_nil, processEvents, List.foldl_nil]
    rw [hmsg, show concatS [] = "" from rfl, String.append_empty]
  | cons t ts ih =>
    intro st pre m hs hcm hmsg hmc hids
    have hsne : ¬ st.stopped = true := by
      rw [hs]
      exact Bool.false_ne_true
    simp only [List.map_cons, processEvents, List.foldl_cons]
    have hstep : stepEvent sid st (tokenEv (JVal.str t)) =
        { st with
          chat := { st.chat with messages :=
            pre ++ [{ m with content := m.content ++ t }] },
          currentMessage := some { m with content := m.content ++ t },
          messageContent := m.content ++ t } := by
      have hidx : st.chat.messages.findIdx (fun x => x.id = m.id) =
          pre.length := by
        rw [hmsg]
        exact findIdx_append_self pre m hids
      have hlt : pre.length < st.chat.messages.length := by
        rw [hmsg]
        simp
      unfold stepEvent
      rw [if_neg hsne, applyEvent_token, hcm, hmc]
      dsimp only
      rw [hidx, if_pos hlt, hmsg, set_append_self]
    show (processEvents sid (stepEvent sid st (tokenEv (JVal.str t)))
        (ts.map (fun s => tokenEv (JVal.str s)))).chat.messages = _
    rw [hstep]
    have hres := ih
      { st with
        chat := { st.chat with messages :=
          pre ++ [{ m with content := m.content ++ t }] },
        currentMessage := some { m with content := m.content ++ t },
        messageContent := m.content ++ t }
      pre { m with content := m.content ++ t } hs rfl rfl rfl hids
    rw [hres, show concatS (t :: ts) = t ++ concatS ts from rfl,
      ← String.append_assoc]

/-- C1: after one `response_start`, any sequence of `token` events leaves
exactly one new assistant message whose content is the concatenation of the
token payloads in arrival order; the concrete scenario
`start, response_start, token("Hel"), token("lo"), complete` yields exactly
one assistant message `"Hello"` with typing false afterward. -/
theorem tokens_concatenate (sid : String) (st : StreamState)
    (toks : List String) (hs : st.stopped = false)
    (hid : ∀ x ∈ st.chat.messages, x.id ≠ st.freshId) :
    ((processEvents sid st
        (respStartEv :: toks.map (fun s => tokenEv (JVal.str s)))).chat.messages =
      st.chat.messages ++
        [{ id := st.freshId, role := "assistant", content := concatS toks,
           isError := false }]) ∧
    ((processStream "s1" (initStream demoChat initialPreferences demoSessions 0)
        [scenarioChunk]).chat.messages =
      [{ id := 0, role := "assistant", content := "Hello", isError := false }] ∧
     (processStream "s1" (initStream demoChat initialPreferences demoSessions 0)
        [scenarioChunk]).chat.isTyping = false) := by
  refine ⟨?_, rfl, rfl⟩
  have hsne : ¬ st.stopped = true := by
    rw [hs]
    exact Bool.false_ne_true
  show (processEvents sid (stepEvent sid st respStartEv)
      (toks.map (fun s => tokenEv (JVal.str s)))).chat.messages = _
  have hstep : stepEvent sid st respStartEv =
      { st with
        chat := setTyping (addMessage st.chat
          { id := st.freshId, role := "assistant", content := "",
            isError := false }) false,
        currentMessage := some
          { id := st.freshId, role := "assistant", content := "",
            isError := false },
        messageContent := "",
        freshId := st.freshId + 1 } := by
    unfold stepEvent
    rw [if_neg hsne, applyEvent_response_start]
  rw [hstep]
  exact tokens_fold sid toks _ st.chat.messages
    { id := st.freshId, role := "assistant", content := "", isError := false }
    hs rfl rfl rfl hid

theorem tokens_concatenate_witness :
    (processEvents "s1"
      (initStream demoChat initialPreferences demoSessions 0)
      (respStartEv :: (["Hel", "lo"].map (fun s => tokenEv (JVal.str s))))).chat.messages =
    [{ id := 0, role := "assistant", content := concatS ["Hel", "lo"],
       isError := false }] :=
  (tokens_concatenate "s1" (initStream demoChat initialPreferences demoSessions 0)
    ["Hel", "lo"] rfl (by simp [demoChat, initStream])).1

theorem applyEvent_complete (sid : String) (st : StreamState) :
    applyEvent sid st completeEv =
      { st with
        chat := saveCurrentSession (setTyping st.chat false),
        sessions := updateSession st.sessions sid
          { lastMessage := some (lastPreview
              (saveCurrentSession (setTyping st.chat false)).messages),
            messageCount := some
              (saveCurrentSession (setTyping st.chat false)).messages.length },
        stopped := true } := rfl

theorem assocGet_assocSet {β : Type} (l : List (String × β)) (k : String)
    (v : β) : assocGet (assocSet l k v) k = some v := by
  induction l with
  | nil => simp [assocSet, assocGet]
  | cons kv t ih =>
    obtain ⟨k', v'⟩ := kv
    by_cases hk : k' = k
    · simp [assocSet, assocGet, hk]
    · simp [assocSet, assocGet, hk, ih]

theorem find?_updateFirst {α : Type} (p : α → Bool) (f : α → α)
    (l : List α) (hf : ∀ x, p x = true → p (f x) = true) :
    (updateFirst p f l).find? p = (l.find? p).map f := by
  induction l with
  | nil => rfl
  | cons x xs ih =>
    by_cases hp : p x = true
    · simp [updateFirst, hp, List.find?_cons, hf x hp]
    · have hpf : p x = false := Bool.eq_false_iff.mpr hp
      simp only [updateFirst, hpf, Bool.false_eq_true, if_false,
        List.find?_cons]
      exact ih

theorem processEvents_stopped (sid : String) (evs : List JVal) :
    ∀ (st : StreamState), st.stopped = true →
    processEvents sid st evs = st := by
  induction evs with
  | nil => exact fun st _ => rfl
  | cons e t ih =>
    intro st h
    show processEvents sid (stepEvent sid st e) t = st
    rw [show stepEvent sid st e = st from by unfold stepEvent; rw [if_pos h]]
    exact ih st h

/-- C6: a `complete` event clears typing, persists messages, actions and
memory into the per-session caches under the chat store's current session
id, sets the session's preview to the last message's content truncated to
50 characters plus an ellipsis and its count to the length of the
authoritative message list, and stops stream processing: no later event of
the stream is applied. -/
theorem complete_event_behavior (sid : String) (st : StreamState)
    (hs : st.stopped = false) :
    (stepEvent sid st completeEv).chat.isTyping = false ∧
    assocGet (stepEvent sid st completeEv).chat.sessionMessages
      st.chat.sessionId = some st.chat.messages ∧
    assocGet (stepEvent sid st completeEv).chat.sessionActions
      st.chat.sessionId = some st.chat.agentActions ∧
    assocGet (stepEvent sid st completeEv).chat.sessionMemory
      st.chat.sessionId = some st.chat.memoryUpdates ∧
    (∀ s, st.sessions.sessions.find? (fun x => x.id = sid) = some s →
      (stepEvent sid st completeEv).sessions.sessions.find?
          (fun x => x.id = sid) =
        some { s with
          lastMessage := some (lastPreview st.chat.messages),
          messageCount := st.chat.messages.length }) ∧
    (∀ (m : Message) (pre : List Message), st.chat.messages = pre ++ [m] →
      lastPreview st.chat.messages = m.content.take 50 ++ "...") ∧
    (stepEvent sid st completeEv).stopped = true ∧
    (∀ evs, processEvents sid (stepEvent sid st completeEv) evs =
      stepEvent sid st completeEv) := by
  have hsne : ¬ st.stopped = true := by
    rw [hs]
    exact Bool.false_ne_true
  have hstep : stepEvent sid st completeEv =
      { st with
        chat := saveCurrentSession (setTyping st.chat false),
        sessions := updateSession st.sessions sid
          { lastMessage := some (lastPreview
              (saveCurrentSession (setTyping st.chat false)).messages),
            messageCount := some
              (saveCurrentSession (setTyping st.chat false)).messages.length },
        stopped := true } := by
    unfold stepEvent
    rw [if_neg hsne, applyEvent_complete]
  refine ⟨?_, ?_, ?_, ?_, ?_, ?_, ?_, ?_⟩
  · rw [hstep]
    rfl
  · rw [hstep]
    exact assocGet_assocSet _ _ _
  · rw [hstep]
    exact assocGet_assocSet _ _ _
  · rw [hstep]
    exact assocGet_assocSet _ _ _
  · intro s hfind
    rw [hstep]
    unfold updateSession
    dsimp only
    rw [find?_updateFirst (fun x => x.id = sid)
      (fun s => { s with
        lastMessage := some (lastPreview
          (saveCurrentSession (setTyping st.chat false)).messages),
        messageCount := (some
          (saveCurrentSession
            (setTyping st.chat false)).messages.length).getD
          s.messageCount })
      st.sessions.sessions (fun x hx => hx), hfind]
    rfl
  · intro m pre hm
    unfold lastPreview
    rw [hm, List.getLast?_concat]
  · rw [hstep]
  · intro evs
    refine processEvents_stopped sid evs _ ?_
    rw [hstep]

theorem complete_event_behavior_witness :
    (stepEvent "s1"
      (initStream demoChat initialPreferences demoSessions 0)
      completeEv).sessions.sessions.find? (fun x => x.id = "s1") =
      some { demoSession with
        lastMessage := some (lastPreview demoChat.messages),
        messageCount := demoChat.messages.length } :=
  (complete_event_behavior "s1"
    (initStream demoChat initialPreferences demoSessions 0)
    rfl).2.2.2.2.1 demoSession rfl
